import Mathlib

/-!
Verification development for the Century EVO performance monitor
(sources: processLoad.py, ai_suggestion_engine.py).

The Python sources are shallowly embedded below: pure computations become
Lean functions over ℚ (Python floats are modelled as exact rationals),
Int and String; the mutable registry / filesystem / cache state touched by
the lifecycle manager and telemetry sampler is modelled as explicit state
records over association lists; fallible loads return plain values along
the same control flow as the exception handlers in the source.
-/

/-! ## Basic utilities -/

/-- Python int() applied to a float/rational: truncation toward zero. -/
def pyInt (q : ℚ) : Int :=
  if q < 0 then -((-q).floor) else q.floor

/-- Substring containment over lists of characters; auxiliary for the
Python expression needle in hay (contiguous substring test). -/
def subAux (n : List Char) : List Char → Bool
  | [] => n.isEmpty
  | c :: t => n.isPrefixOf (c :: t) || subAux n t

/-- Python needle in hay for strings: contiguous substring containment. -/
def strContains (needle hay : String) : Bool :=
  subAux needle.data hay.data

/-- Python str.lower(), character by character (the names and commands
the source lowercases are ASCII). -/
def pyLower (s : String) : String :=
  String.mk (s.data.map Char.toLower)

/-- First value bound to key k in an association list (dict lookup). -/
def lookupVal {κ α : Type} [DecidableEq κ] (l : List (κ × α)) (k : κ) : Option α :=
  match l with
  | [] => none
  | (k1, v) :: t => if k1 = k then some v else lookupVal t k

/-- Bind key k to v, replacing the first existing binding in place,
appending otherwise (dict assignment / RegSetValueEx). -/
def setVal {κ α : Type} [DecidableEq κ] (l : List (κ × α)) (k : κ) (v : α) : List (κ × α) :=
  match l with
  | [] => [(k, v)]
  | (k1, v1) :: t => if k1 = k then (k, v) :: t else (k1, v1) :: setVal t k v

/-- Remove the first binding of key k (RegDeleteValue). -/
def eraseVal {κ α : Type} [DecidableEq κ] (l : List (κ × α)) (k : κ) : List (κ × α) :=
  match l with
  | [] => []
  | (k1, v1) :: t => if k1 = k then t else (k1, v1) :: eraseVal t k

/-! ## Scoring engine (SuggestionEngine.scan_for_suggestions, processLoad.py 140-304) -/

/-- score_item from scan_for_suggestions (processLoad.py 156-163):
weighted base, +15 startup, +20 suspicious, then min(100, int(base)). -/
def score_item (cpu mem disk net : ℚ) (startup suspicious : Bool) : Int :=
  min 100 (pyInt (cpu * 2 + mem * (1/2) + disk * (3/10) + net * (3/10)
    + (if startup then 15 else 0) + (if suspicious then 20 else 0)))

/-- One value of proc_map as produced by _gather_proc_scores
(processLoad.py 545-614): pid maps to the 6-tuple
(name, cpu percent, mem percent, disk_bytes_delta, net_ops, score_numeric). -/
structure ProcInfo where
  pname : String
  cpu : ℚ
  mem : ℚ
  diskBytesDelta : ℚ
  netOps : ℚ
  scoreNumeric : ℚ
deriving DecidableEq, Repr

/-- The persisted whitelist/blacklist (user_prefs.json). -/
structure UserPrefs where
  whitelist : List String
  blacklist : List String
deriving DecidableEq, Repr

/-- Environmental context sampled at the top of scan_for_suggestions
(processLoad.py 165-172): batteryLow stands for the condition
battery and battery.percent is not None and battery.percent < 20,
diskFull for disk_pct > 90, fullscreen for is_fullscreen_app_running. -/
structure ScanContext where
  batteryLow : Bool
  diskFull : Bool
  fullscreen : Bool
deriving DecidableEq, Repr

/-- A raw startup record (hive, path, name, value) as returned by
SuggestionEngine.list_registry_startup (processLoad.py 100-126); WMI
records and startup-folder records carry hive = none, path = none. -/
structure RawEntry where
  hive : Option Nat
  path : Option String
  name : String
  cmd : String
deriving DecidableEq, Repr

/-- One service record as consumed by the services loop
(processLoad.py 234-240): sname models svc.get("name") or
svc.get("display_name") or "", binpath models svc.get("binpath") or
svc.get("path", ""). -/
structure SvcEntry where
  sname : String
  binpath : String
deriving DecidableEq, Repr

/-- The five suggestion-text variants emitted by scan_for_suggestions,
one constructor per literal string in the source. -/
inductive SuggKind
  /-- " Disable from startup (backup recommended)" -/
  | disableFromStartup
  /-- "ℹ️ Optional: disable if unnecessary" -/
  | optionalDisable
  /-- "ℹ️ Can disable from startup if not needed" -/
  | canDisableIfNotNeeded
  /-- "⚠️ Stop and disable service (if non-critical)" -/
  | stopDisableService
  /-- "ℹ️ Leave running (safe)" -/
  | leaveRunning
  /-- "ℹ️ Optional: disable from services.msc" -/
  | serviceNotActive
  /-- "✅ No actionable suggestions found" -/
  | systemOk
deriving DecidableEq, Repr

/-- The coarse recommended-action bucket of the spec glossary: a row is
actionable when its text recommends disabling/stopping the subject, and
informational when its text is an optional ℹ️/✅ note. -/
inductive Tier
  | actionable
  | informational
deriving DecidableEq, Repr

/-- Tier of each suggestion-text variant. -/
def tierOfKind : SuggKind → Tier
  | .disableFromStartup => .actionable
  | .stopDisableService => .actionable
  | _ => .informational

/-- The action callable attached to a suggestion row, as a tag recording
which closure the source attaches: disableStartupEntry models
functools partial application of disable_startup_entry, stopService models
the stop_and_disable_service closure, and noop models the argumentless
lambdas returning (False, msg) that perform no action. -/
inductive SuggAction
  | disableStartupEntry (hive : Option Nat) (path : Option String) (name : String)
  | stopService (name : String)
  | noop (msg : String)
deriving DecidableEq, Repr

/-- One suggestion row. The numeric score is carried as a field: the
source embeds the integer s in the usage text as [Score s] and later
re-parses exactly that integer in _extract_score, so the field is a
faithful rendering of the text round trip. -/
structure Suggestion where
  name : String
  typ : String
  score : Int
  kind : SuggKind
  action : SuggAction
deriving DecidableEq, Repr

/-- The suspicious heuristic of the registry-startup loop
(processLoad.py 179): "update" not in name.lower() and
"microsoft" not in cmd.lower(). -/
def registrySuspicious (name cmd : String) : Bool :=
  !(strContains "update" (pyLower name)) && !(strContains "microsoft" (pyLower cmd))

/-- The correlation loop of the registry-startup branch
(processLoad.py 181-186): first (pid, info) whose name matches
name and name.lower() in nm.lower() or (cmd and nm.lower() in cmd.lower()). -/
def findProcMatch (pm : List (Nat × ProcInfo)) (name cmd : String) : Option (Nat × ProcInfo) :=
  pm.find? (fun p =>
    (name != "" && strContains (pyLower name) (pyLower p.2.pname)) ||
    (cmd != "" && strContains (pyLower p.2.pname) (pyLower cmd)))

/-- The suggestion row produced for one registry-startup record
(processLoad.py 175-231). Note that the source reads disk from info[4]
(the net_ops slot of the proc_map tuple) and net from info[5] (the
score_numeric slot); the embedding follows the source indices. -/
def registryRow (prefs : UserPrefs) (ctx : ScanContext) (pm : List (Nat × ProcInfo))
    (e : RawEntry) : Option Suggestion :=
  if e.name ∈ prefs.whitelist then none
  else
    let susp := registrySuspicious e.name e.cmd
    match findProcMatch pm e.name e.cmd with
    | some (_, i) =>
        let s := score_item i.cpu i.mem i.netOps i.scoreNumeric true susp
        let s := s + (if ctx.batteryLow then 10 else 0)
        let s := s + (if ctx.diskFull then 10 else 0)
        if e.name ∈ prefs.blacklist ∨ s ≥ 60 then
          some ⟨e.name, "Startup App", s, .disableFromStartup,
            .disableStartupEntry e.hive e.path e.name⟩
        else
          some ⟨e.name, "Startup App", s, .optionalDisable, .noop "Safe – no auto action"⟩
    | none =>
        let s : Int := if e.name ∈ prefs.whitelist then 0 else 20
        some ⟨e.name, "Startup App", s, .canDisableIfNotNeeded,
          .disableStartupEntry e.hive e.path e.name⟩

/-- The correlation test of the services loop (processLoad.py 242-247):
first (pid, info) with nm and nm.lower() in binpath.lower(). -/
def findSvcMatch (pm : List (Nat × ProcInfo)) (binpath : String) : Option (Nat × ProcInfo) :=
  pm.find? (fun p => p.2.pname != "" && strContains (pyLower p.2.pname) (pyLower binpath))

/-- The suggestion row produced for one service record
(processLoad.py 234-288); disk and net are read from indices 4 and 5 of
the proc_map tuple exactly as in the source. -/
def serviceRow (prefs : UserPrefs) (ctx : ScanContext) (pm : List (Nat × ProcInfo))
    (sv : SvcEntry) : Option Suggestion :=
  if sv.sname ∈ prefs.whitelist then none
  else
    let susp := strContains "unknown" (pyLower sv.sname) || strContains "temp" (pyLower sv.binpath)
    match findSvcMatch pm sv.binpath with
    | some (_, i) =>
        let s := score_item i.cpu i.mem i.netOps i.scoreNumeric false susp
        let s := if ctx.fullscreen ∧ s < 70 then s - 15 else s
        if sv.sname ∈ prefs.blacklist ∨ s ≥ 50 then
          some ⟨sv.sname, "Service", s, .stopDisableService, .stopService sv.sname⟩
        else
          some ⟨sv.sname, "Service", s, .leaveRunning, .noop "Service safe – no action"⟩
    | none =>
        some ⟨sv.sname, "Service", 0, .serviceNotActive, .noop "Service not active"⟩

/-- Stable descending insertion used to model Python list.sort with
reverse=True keyed on the parsed [Score s] integer: an element is placed
after every already-placed element whose score is greater or equal. -/
def insertDescBy (x : Suggestion) : List Suggestion → List Suggestion
  | [] => [x]
  | y :: ys => if x.score > y.score then x :: y :: ys else y :: insertDescBy x ys

/-- suggestions.sort(key=..., reverse=True) (processLoad.py 292-301):
stable sort, highest score first. -/
def sortSuggestions (l : List Suggestion) : List Suggestion :=
  l.foldl (fun acc x => insertDescBy x acc) []

/-- The fallback row appended when no suggestion was produced
(processLoad.py 302-303): ("System OK", "Info", "-", ..., lambda
returning (False, "No action")); the "-" usage text parses to score 0. -/
def systemOkRow : Suggestion :=
  ⟨"System OK", "Info", 0, .systemOk, .noop "No action"⟩

/-- scan_for_suggestions (processLoad.py 140-304), parameterized over the
enumerated registry records, service records and the proc_map snapshot. -/
def scan_for_suggestions (prefs : UserPrefs) (ctx : ScanContext)
    (reg : List RawEntry) (svcs : List SvcEntry) (pm : List (Nat × ProcInfo)) :
    List Suggestion :=
  let rows := reg.filterMap (registryRow prefs ctx pm) ++ svcs.filterMap (serviceRow prefs ctx pm)
  let rows := sortSuggestions rows
  if rows.isEmpty then [systemOkRow] else rows

/-! ## Startup enumeration merge/dedup (_update_startup_tab, processLoad.py 1269-1316) -/

/-- The dedup key built in _update_startup_tab (processLoad.py 1280,
1311): key = (str(name).lower(), str(cmd or "").lower()). -/
def dedupKey (e : RawEntry) : String × String :=
  (pyLower e.name, pyLower e.cmd)

/-- One pass of the seen-set dedup loop: keep the first record bearing
each key, in input order. -/
def dedupGo (seen : List (String × String)) : List RawEntry → List RawEntry
  | [] => []
  | e :: es =>
      if dedupKey e ∈ seen then dedupGo seen es
      else e :: dedupGo (dedupKey e :: seen) es

/-- The merge of _update_startup_tab: dedup the registry records, append
the startup-folder records, dedup the concatenation again
(processLoad.py 1276-1316). -/
def mergeStartupEntries (reg folder : List RawEntry) : List RawEntry :=
  dedupGo [] (dedupGo [] reg ++ folder)

/-- Remove every double-quote character (quote stripping). -/
def stripQuotes (s : String) : String :=
  String.mk (s.data.filter (fun c => c ≠ '"'))

/-- Characters after the last backslash or slash separator. -/
def baseChars (cur : List Char) : List Char → List Char
  | [] => cur
  | c :: t => if c = '\\' || c = '/' then baseChars [] t else baseChars (cur ++ [c]) t

/-- Last path segment (the basename of a path). -/
def baseName (s : String) : String :=
  String.mk (baseChars [] s.data)

/-- The normalization the spec describes for dedup identity (resolved
executable basename, quote-stripped, lower-cased); stated from the spec
wording to compare with the key the source actually uses. -/
def specNormIdentity (cmd : String) : String :=
  pyLower (baseName (stripQuotes cmd))

/-! ## Lifecycle manager (registry Run entries, processLoad.py 907-1089, 1174-1197) -/

/-- A registry value: raw data bytes plus the registry value type code
(as returned by QueryValueEx and passed back to SetValueEx). -/
structure RegValue where
  data : List Nat
  vtype : Nat
deriving DecidableEq, Repr

/-- winreg REG_SZ type code. -/
def regSzType : Nat := 1

/-- A command string re-encoded as REG_SZ raw data (used when Enable has
to recreate a deleted primary value from the remembered command). -/
def regSzOf (cmd : String) : RegValue :=
  ⟨cmd.data.map Char.toNat, regSzType⟩

/-- The registry state a single Run entry location can see: the Run key,
its RunDisabled sibling, and the StartupApproved approval store in the
64-bit and 32-bit views. An approval component equal to none models the
StartupApproved key being absent (OpenKey raising FileNotFoundError,
which _write_startup_approved_for_views silently skips). -/
structure StartupState where
  run : List (String × RegValue)
  runDisabled : List (String × RegValue)
  approved64 : Option (List (String × List Nat))
  approved32 : Option (List (String × List Nat))
deriving DecidableEq, Repr

/-- The 8-byte approval flag written by _set_startup_approval
(processLoad.py 938-942, 958-962): first byte 0x02 enabled / 0x03
disabled, then 7 zero bytes. -/
def approvalFlagBytes (enable : Bool) : List Nat :=
  (if enable then 2 else 3) :: List.replicate 7 0

/-- The 12-byte value written by set_startup_status
(processLoad.py 1182-1184): bytes([0x02 or 0x03]) + 11 zero bytes. -/
def setStartupStatusBytes (enabled : Bool) : List Nat :=
  (if enabled then 2 else 3) :: List.replicate 11 0

/-- _write_startup_approved_for_views (processLoad.py 907-929): set the
approval value in every view whose StartupApproved key opens; a missing
key (none) is skipped silently. -/
def writeApprovedViews (st : StartupState) (name : String) (bytes : List Nat) : StartupState :=
  { st with
    approved64 := st.approved64.map (fun m => setVal m name bytes)
    approved32 := st.approved32.map (fun m => setVal m name bytes) }

/-- _disable_startup_entry_ui, registry branch (processLoad.py 979-996):
read the primary value (FileNotFoundError gives none); when present, copy
it with its type into the RunDisabled sibling and delete it from Run;
then write the disabled approval flag via _set_startup_approval. -/
def disableEntry (st : StartupState) (name : String) : StartupState :=
  let st :=
    match lookupVal st.run name with
    | some v =>
        { st with
          runDisabled := setVal st.runDisabled name v
          run := eraseVal st.run name }
    | none => st
  writeApprovedViews st name (approvalFlagBytes false)

/-- _enable_startup_entry_ui, registry branch (processLoad.py 1018-1035):
restore the shadow copy from RunDisabled into Run with its original type
and delete the shadow; if no shadow exists (FileNotFoundError) and a
command string is known, recreate the primary value as REG_SZ from it;
then write the enabled approval flag. -/
def enableEntry (st : StartupState) (name cmd : String) : StartupState :=
  let st :=
    match lookupVal st.runDisabled name with
    | some v =>
        { st with
          run := setVal st.run name v
          runDisabled := eraseVal st.runDisabled name }
    | none =>
        if cmd ≠ "" then { st with run := setVal st.run name (regSzOf cmd) } else st
  writeApprovedViews st name (approvalFlagBytes true)

/-- The AutostartEntry approval states of the spec data model. -/
inductive ApprovalState
  | Enabled
  | Disabled
  | Unknown
deriving DecidableEq, Repr

/-- The enabled/disabled detection of _update_startup_tab for registry
entries (processLoad.py 1346-1372): read the StartupApproved value in the
default (64-bit) view; a missing key or missing value means Enabled;
first byte 0x03 means Disabled, anything else Enabled. -/
def approvalStateOf (st : StartupState) (name : String) : ApprovalState :=
  match st.approved64 with
  | none => .Enabled
  | some m =>
      match lookupVal m name with
      | none => .Enabled
      | some bytes => if bytes.head? = some 3 then .Disabled else .Enabled

/-! ## Telemetry sampler delta caches (_gather_proc_scores, processLoad.py 545-614) -/

/-- is_system_process_name (processLoad.py 51-57). -/
def is_system_process_name (name : String) : Bool :=
  if name = "" then true
  else
    let low := pyLower name
    strContains "idle" low || (low = "system" || low = "system idle process" || low = "ntoskrnl.exe")

/-- One process observation consumed by _gather_proc_scores: pid, name,
cumulative io read/write bytes, and the other_count/read_count op
counters backing the network-op approximation. -/
structure ProcIoObs where
  pid : Nat
  pname : String
  readBytes : Nat
  writeBytes : Nat
  otherCount : Nat
  readCount : Nat
deriving DecidableEq, Repr

/-- The mutation _gather_proc_scores performs on the two previous-sample
caches across one pass: for every enumerated process that is not a
system/idle pseudo-process it assigns prev_disk[pid] = (read, write) and
prev_net[pid] = (other_count, read_count); no key is ever removed. -/
def updateDeltaCaches (prevDisk prevNet : List (Nat × (Nat × Nat))) :
    List ProcIoObs → List (Nat × (Nat × Nat)) × List (Nat × (Nat × Nat))
  | [] => (prevDisk, prevNet)
  | p :: ps =>
      if is_system_process_name p.pname then updateDeltaCaches prevDisk prevNet ps
      else
        updateDeltaCaches (setVal prevDisk p.pid (p.readBytes, p.writeBytes))
          (setVal prevNet p.pid (p.otherCount, p.readCount)) ps

/-! ## Preference loading (SuggestionEngine.__init__, processLoad.py 77-98) -/

/-- Abstraction of what the preference file on disk can hold: missing,
present but unparseable, or parsed preference content. -/
inductive PrefFile
  | missing
  | corrupt
  | parsed (p : UserPrefs)
deriving DecidableEq, Repr

/-- The preference load of SuggestionEngine.__init__ (processLoad.py
83-91): a missing file takes the else branch and installs empty lists; a
parse failure is caught and installs empty lists; a parsed file installs
its content. The load only ever reads the file, so the file component of
the result is returned unchanged (AISuggestionsEngine._load_history in
ai_suggestion_engine.py 25-32 follows the same shape). -/
def loadUserPrefs : PrefFile → UserPrefs × PrefFile
  | .missing => (⟨[], []⟩, .missing)
  | .corrupt => (⟨[], []⟩, .corrupt)
  | .parsed p => (p, .parsed p)

/-! ## Helper lemmas -/

theorem lookupVal_setVal_self {κ α : Type} [DecidableEq κ] (l : List (κ × α)) (k : κ) (v : α) :
    lookupVal (setVal l k v) k = some v := by
  induction l with
  | nil => simp [setVal, lookupVal]
  | cons p t ih =>
      obtain ⟨k1, v1⟩ := p
      by_cases h : k1 = k <;> simp [setVal, lookupVal, h, ih]

theorem lookupVal_setVal_ne {κ α : Type} [DecidableEq κ] (l : List (κ × α)) (k1 k2 : κ) (v : α)
    (h : k1 ≠ k2) : lookupVal (setVal l k1 v) k2 = lookupVal l k2 := by
  induction l with
  | nil => simp [setVal, lookupVal, h]
  | cons p t ih =>
      obtain ⟨k3, v3⟩ := p
      by_cases h3 : k3 = k1
      · subst h3
        simp [setVal, lookupVal, h]
      · simp [setVal, lookupVal, h3, ih]

theorem lookupVal_setVal_isSome {κ α : Type} [DecidableEq κ] (l : List (κ × α)) (k1 k2 : κ)
    (v : α) (h : (lookupVal l k2).isSome) : (lookupVal (setVal l k1 v) k2).isSome := by
  by_cases hk : k1 = k2
  · subst hk
    rw [lookupVal_setVal_self]
    rfl
  · rw [lookupVal_setVal_ne l k1 k2 v hk]
    exact h

theorem pyInt_nonneg (q : ℚ) (h : 0 ≤ q) : 0 ≤ pyInt q := by
  unfold pyInt
  rw [if_neg (not_lt.mpr h)]
  exact Rat.le_floor.mpr (by exact_mod_cast h)

theorem score_item_le_100 (cpu mem disk net : ℚ) (st sp : Bool) :
    score_item cpu mem disk net st sp ≤ 100 :=
  min_le_left _ _

theorem score_item_nonneg (cpu mem disk net : ℚ) (st sp : Bool)
    (hc : 0 ≤ cpu) (hm : 0 ≤ mem) (hd : 0 ≤ disk) (hn : 0 ≤ net) :
    0 ≤ score_item cpu mem disk net st sp := by
  unfold score_item
  apply le_min (by norm_num)
  apply pyInt_nonneg
  have h1 : (0:ℚ) ≤ if st then 15 else 0 := by split <;> norm_num
  have h2 : (0:ℚ) ≤ if sp then 20 else 0 := by split <;> norm_num
  have h3 : (0:ℚ) ≤ cpu * 2 := by positivity
  have h4 : (0:ℚ) ≤ mem * (1/2) := by positivity
  have h5 : (0:ℚ) ≤ disk * (3/10) := by positivity
  have h6 : (0:ℚ) ≤ net * (3/10) := by positivity
  linarith

theorem insertDescBy_perm (x : Suggestion) (l : List Suggestion) :
    List.Perm (insertDescBy x l) (x :: l) := by
  induction l with
  | nil => exact List.Perm.refl _
  | cons y ys ih =>
      unfold insertDescBy
      split
      · exact List.Perm.refl _
      · exact (List.Perm.cons y ih).trans (List.Perm.swap x y ys)

theorem sortFold_perm (l : List Suggestion) :
    ∀ acc, List.Perm (l.foldl (fun a x => insertDescBy x a) acc) (l ++ acc) := by
  induction l with
  | nil => intro acc; simp
  | cons x xs ih =>
      intro acc
      have h1 := ih (insertDescBy x acc)
      have h2 : List.Perm (xs ++ insertDescBy x acc) (xs ++ (x :: acc)) :=
        List.Perm.append_left xs (insertDescBy_perm x acc)
      have h3 : List.Perm (xs ++ (x :: acc)) (x :: (xs ++ acc)) := List.perm_middle
      simpa using (h1.trans h2).trans h3

theorem sortSuggestions_perm (l : List Suggestion) :
    List.Perm (sortSuggestions l) l := by
  simpa using sortFold_perm l []

theorem mem_of_sortSuggestions {r : Suggestion} {l : List Suggestion}
    (h : r ∈ sortSuggestions l) : r ∈ l :=
  (sortSuggestions_perm l).mem_iff.mp h

theorem sortSuggestions_nil_iff (l : List Suggestion) :
    sortSuggestions l = [] ↔ l = [] := by
  constructor
  · intro h
    have := (sortSuggestions_perm l).length_eq
    rw [h] at this
    exact List.length_eq_zero.mp this.symm
  · intro h
    subst h
    rfl

theorem registryRow_score_bounds (prefs : UserPrefs) (ctx : ScanContext)
    (pm : List (Nat × ProcInfo)) (e : RawEntry) (r : Suggestion)
    (hpm : ∀ pr ∈ pm, 0 ≤ pr.2.cpu ∧ 0 ≤ pr.2.mem ∧ 0 ≤ pr.2.netOps ∧ 0 ≤ pr.2.scoreNumeric)
    (h : registryRow prefs ctx pm e = some r) :
    -15 ≤ r.score ∧ r.score ≤ 120 := by
  simp only [registryRow] at h
  split at h
  · exact absurd h (by simp)
  · split at h
    case h_1 pid i heq =>
      have hmem := List.mem_of_find?_eq_some heq
      obtain ⟨hc, hm, hn, hs⟩ := hpm _ hmem
      have hlo := score_item_nonneg i.cpu i.mem i.netOps i.scoreNumeric true
        (registrySuspicious e.name e.cmd) hc hm hn hs
      have hhi := score_item_le_100 i.cpu i.mem i.netOps i.scoreNumeric true
        (registrySuspicious e.name e.cmd)
      split at h <;> split at h <;> split at h <;>
        (cases h; simp only; omega)
    case h_2 heq =>
      cases h
      simp only
      omega

theorem serviceRow_score_bounds (prefs : UserPrefs) (ctx : ScanContext)
    (pm : List (Nat × ProcInfo)) (sv : SvcEntry) (r : Suggestion)
    (hpm : ∀ pr ∈ pm, 0 ≤ pr.2.cpu ∧ 0 ≤ pr.2.mem ∧ 0 ≤ pr.2.netOps ∧ 0 ≤ pr.2.scoreNumeric)
    (h : serviceRow prefs ctx pm sv = some r) :
    -15 ≤ r.score ∧ r.score ≤ 120 := by
  simp only [serviceRow] at h
  split at h
  · exact absurd h (by simp)
  · split at h
    case h_1 pid i heq =>
      have hmem := List.mem_of_find?_eq_some heq
      obtain ⟨hc, hm, hn, hs⟩ := hpm _ hmem
      have hlo := score_item_nonneg i.cpu i.mem i.netOps i.scoreNumeric false
        (strContains "unknown" (pyLower sv.sname) || strContains "temp" (pyLower sv.binpath))
        hc hm hn hs
      have hhi := score_item_le_100 i.cpu i.mem i.netOps i.scoreNumeric false
        (strContains "unknown" (pyLower sv.sname) || strContains "temp" (pyLower sv.binpath))
      split at h <;> split at h <;>
        (cases h; simp only; omega)
    case h_2 heq =>
      cases h
      simp only
      omega

/-! ## Claim theorems -/

unseal Rat.add Rat.mul Rat.inv Rat.sub Nat.gcd in
/-- Claim C1, counterexample: for the registry entry App matched with a
running process at cpu 50 (score_item clamps to 100), with battery below
20 percent and disk above 90 percent full, the score attached to the
suggestion row is 120, outside the interval claimed. -/
theorem claim_C1_counterexample :
    (scan_for_suggestions ⟨[], []⟩ ⟨true, true, false⟩
        [⟨some 1, some "RunPath", "App", "evil.exe"⟩] []
        [(7, ⟨"App.exe", 50, 0, 0, 0, 0⟩)]).map Suggestion.score = [120] ∧
    ¬ ((120 : Int) ≤ 100) := by
  exact ⟨by decide, by decide⟩

/-- Claim C1 (amended): score_item clamps its own result to at most 100
(and it is nonnegative for the nonnegative signals the sampler produces),
but the battery and disk-full modifiers (+10 each) are added after that
clamp and the fullscreen penalty (-15) is subtracted after it, so the
final score attached to a suggestion row lies in [-15, 120] rather than
[0, 100]. -/
theorem claim_C1_amended (prefs : UserPrefs) (ctx : ScanContext) (reg : List RawEntry)
    (svcs : List SvcEntry) (pm : List (Nat × ProcInfo))
    (hpm : ∀ pr ∈ pm, 0 ≤ pr.2.cpu ∧ 0 ≤ pr.2.mem ∧ 0 ≤ pr.2.netOps ∧ 0 ≤ pr.2.scoreNumeric) :
    ∀ r ∈ scan_for_suggestions prefs ctx reg svcs pm, -15 ≤ r.score ∧ r.score ≤ 120 := by
  intro r hr
  simp only [scan_for_suggestions] at hr
  split at hr
  · have : r = systemOkRow := by simpa using hr
    subst this
    exact ⟨by decide, by decide⟩
  · have hmem := mem_of_sortSuggestions hr
    rcases List.mem_append.mp hmem with hreg | hsvc
    · obtain ⟨e, _, heq⟩ := List.mem_filterMap.mp hreg
      exact registryRow_score_bounds prefs ctx pm e r hpm heq
    · obtain ⟨sv, _, heq⟩ := List.mem_filterMap.mp hsvc
      exact serviceRow_score_bounds prefs ctx pm sv r hpm heq

/-- Claim C1, witness for the amended theorem at a concrete input. -/
theorem claim_C1_witness :
    -15 ≤ systemOkRow.score ∧ systemOkRow.score ≤ 120 :=
  claim_C1_amended ⟨[], []⟩ ⟨false, false, false⟩ [] [] []
    (by intro pr hpr; cases hpr) systemOkRow (by decide)

/-- Claim C10: for every process-map input (and any enumerated registry
and service records), the suggestion scan returns a non-empty list; when
the scan produced no suggestion row at all, the result is exactly the
single informational System OK row whose action tag is the no-action
closure returning (False, "No action"). -/
theorem claim_C10 (prefs : UserPrefs) (ctx : ScanContext) (reg : List RawEntry)
    (svcs : List SvcEntry) (pm : List (Nat × ProcInfo)) :
    scan_for_suggestions prefs ctx reg svcs pm ≠ [] ∧
    (reg.filterMap (registryRow prefs ctx pm) ++ svcs.filterMap (serviceRow prefs ctx pm) = [] →
      scan_for_suggestions prefs ctx reg svcs pm = [systemOkRow] ∧
      tierOfKind systemOkRow.kind = Tier.informational ∧
      systemOkRow.action = SuggAction.noop "No action") := by
  constructor
  · simp only [scan_for_suggestions]
    split
    · simp
    · next hne =>
        intro hc
        rw [hc] at hne
        simp at hne
  · intro h0
    refine ⟨?_, rfl, rfl⟩
    simp only [scan_for_suggestions, h0]
    rfl

/-- Claim C10, witness at the empty input. -/
theorem claim_C10_witness :
    scan_for_suggestions ⟨[], []⟩ ⟨false, false, false⟩ [] [] [] = [systemOkRow] ∧
    tierOfKind systemOkRow.kind = Tier.informational ∧
    systemOkRow.action = SuggAction.noop "No action" :=
  (claim_C10 ⟨[], []⟩ ⟨false, false, false⟩ [] [] []).2 rfl

unseal Rat.add Rat.mul Rat.inv Rat.sub Nat.gcd in
/-- Claim C4, counterexample: the deny-listed entry Evil with no matching
running process (empty proc_map) receives the informational
can-disable-if-not-needed row, not an actionable-tier row. -/
theorem claim_C4_counterexample :
    scan_for_suggestions ⟨[], ["Evil"]⟩ ⟨false, false, false⟩
        [⟨some 1, some "RunPath", "Evil", "evil.exe"⟩] [] [] =
      [⟨"Evil", "Startup App", 20, .canDisableIfNotNeeded,
        .disableStartupEntry (some 1) (some "RunPath") "Evil"⟩] ∧
    tierOfKind SuggKind.canDisableIfNotNeeded ≠ Tier.actionable := by
  exact ⟨by decide, by decide⟩

/-- Claim C4 (amended): a deny-listed (and not allow-listed) entity is
forced into the actionable tier regardless of its computed numeric score
only when a matching running process was found; when no matching process
exists, the row produced is the informational not-running row even for
deny-listed entities (registry startup entries and services alike). -/
theorem claim_C4_amended (prefs : UserPrefs) (ctx : ScanContext)
    (pm : List (Nat × ProcInfo)) (e : RawEntry) (sv : SvcEntry)
    (hew : e.name ∉ prefs.whitelist) (heb : e.name ∈ prefs.blacklist)
    (hsw : sv.sname ∉ prefs.whitelist) (hsb : sv.sname ∈ prefs.blacklist) :
    ((findProcMatch pm e.name e.cmd).isSome →
      ∃ r, registryRow prefs ctx pm e = some r ∧ tierOfKind r.kind = Tier.actionable) ∧
    (findProcMatch pm e.name e.cmd = none →
      ∃ r, registryRow prefs ctx pm e = some r ∧ tierOfKind r.kind = Tier.informational) ∧
    ((findSvcMatch pm sv.binpath).isSome →
      ∃ r, serviceRow prefs ctx pm sv = some r ∧ tierOfKind r.kind = Tier.actionable) ∧
    (findSvcMatch pm sv.binpath = none →
      ∃ r, serviceRow prefs ctx pm sv = some r ∧ tierOfKind r.kind = Tier.informational) := by
  refine ⟨?_, ?_, ?_, ?_⟩
  · intro hm
    obtain ⟨⟨pid, i⟩, hfind⟩ := Option.isSome_iff_exists.mp hm
    simp only [registryRow, if_neg hew, hfind]
    rw [if_pos (Or.inl heb)]
    exact ⟨_, rfl, rfl⟩
  · intro hnone
    simp only [registryRow, if_neg hew, hnone]
    exact ⟨_, rfl, rfl⟩
  · intro hm
    obtain ⟨⟨pid, i⟩, hfind⟩ := Option.isSome_iff_exists.mp hm
    simp only [serviceRow, if_neg hsw, hfind]
    rw [if_pos (Or.inl hsb)]
    exact ⟨_, rfl, rfl⟩
  · intro hnone
    simp only [serviceRow, if_neg hsw, hnone]
    exact ⟨_, rfl, rfl⟩

/-- Claim C4, witness: the amended theorem applied at a concrete
deny-listed registry entry with a matching running process. -/
theorem claim_C4_witness :
    ∃ r, registryRow ⟨[], ["Evil"]⟩ ⟨false, false, false⟩
        [(3, ⟨"evil.exe", 0, 0, 0, 0, 0⟩)] ⟨some 1, some "RunPath", "Evil", "evil.exe"⟩ = some r ∧
      tierOfKind r.kind = Tier.actionable :=
  (claim_C4_amended ⟨[], ["Evil"]⟩ ⟨false, false, false⟩
      [(3, ⟨"evil.exe", 0, 0, 0, 0, 0⟩)] ⟨some 1, some "RunPath", "Evil", "evil.exe"⟩
      ⟨"Evil", "bin"⟩ (by decide) (by decide) (by decide) (by decide)).1 (by decide)

unseal Rat.add Rat.mul Rat.inv Rat.sub Nat.gcd in
/-- Claim C5, counterexample: for the entry Updater with command
C:\Temp\upd.exe and correlated signals cpu=1.0, mem=0.3, diskKB=0,
netOps=0, the registry-branch suspicious heuristic is false (the lowered
name contains the substring update) and the computed score is 17, not the
claimed suspicious=true and score=37. -/
theorem claim_C5_counterexample :
    registrySuspicious "Updater" "C:\\Temp\\upd.exe" = false ∧
    (scan_for_suggestions ⟨[], []⟩ ⟨false, false, false⟩
        [⟨some 1, some "RunPath", "Updater", "C:\\Temp\\upd.exe"⟩] []
        [(1234, ⟨"upd.exe", 1, 3/10, 0, 0, 0⟩)]).map Suggestion.score = [17] ∧
    ¬ ((scan_for_suggestions ⟨[], []⟩ ⟨false, false, false⟩
        [⟨some 1, some "RunPath", "Updater", "C:\\Temp\\upd.exe"⟩] []
        [(1234, ⟨"upd.exe", 1, 3/10, 0, 0, 0⟩)]).map Suggestion.score = [37]) := by
  exact ⟨by decide, by decide, by decide⟩

unseal Rat.add Rat.mul Rat.inv Rat.sub Nat.gcd in
/-- Claim C5 (amended): for that input the engine marks the entry NOT
suspicious, because its lowered name contains the substring update (the
registry branch never inspects the path for temp-like segments), computes
base 1*2 + 0.3*0.5 = 2.15, adds only the +15 startup bonus, truncates to
integer score 17, and assigns the informational tier. -/
theorem claim_C5_amended :
    scan_for_suggestions ⟨[], []⟩ ⟨false, false, false⟩
        [⟨some 1, some "RunPath", "Updater", "C:\\Temp\\upd.exe"⟩] []
        [(1234, ⟨"upd.exe", 1, 3/10, 0, 0, 0⟩)] =
      [⟨"Updater", "Startup App", 17, .optionalDisable, .noop "Safe – no auto action"⟩] ∧
    registrySuspicious "Updater" "C:\\Temp\\upd.exe" = false ∧
    tierOfKind SuggKind.optionalDisable = Tier.informational := by
  exact ⟨by decide, by decide, by decide⟩

/-- Claim C2: for a registry-run entry in Enabled state whose primary
value is present, Disable followed by Enable restores the primary value
byte-for-byte with its original registry value type at its original
location, and the approval state resolves to Enabled. -/
theorem claim_C2_roundtrip (st : StartupState) (name cmd : String) (v : RegValue)
    (hrun : lookupVal st.run name = some v)
    (happ : approvalStateOf st name = ApprovalState.Enabled) :
    lookupVal (enableEntry (disableEntry st name) name cmd).run name = some v ∧
    approvalStateOf (enableEntry (disableEntry st name) name cmd) name =
      ApprovalState.Enabled := by
  have hd : disableEntry st name =
      { run := eraseVal st.run name
        runDisabled := setVal st.runDisabled name v
        approved64 := st.approved64.map (fun m => setVal m name (approvalFlagBytes false))
        approved32 := st.approved32.map (fun m => setVal m name (approvalFlagBytes false)) } := by
    simp [disableEntry, hrun, writeApprovedViews]
  have hshadow : lookupVal (disableEntry st name).runDisabled name = some v := by
    rw [hd]
    exact lookupVal_setVal_self _ _ _
  have he : enableEntry (disableEntry st name) name cmd =
      { run := setVal (disableEntry st name).run name v
        runDisabled := eraseVal (disableEntry st name).runDisabled name
        approved64 := (disableEntry st name).approved64.map
          (fun m => setVal m name (approvalFlagBytes true))
        approved32 := (disableEntry st name).approved32.map
          (fun m => setVal m name (approvalFlagBytes true)) } := by
    simp [enableEntry, hshadow, writeApprovedViews]
  constructor
  · rw [he]
    exact lookupVal_setVal_self _ _ _
  · rw [he, hd]
    cases st.approved64 with
    | none => rfl
    | some m =>
        simp [approvalStateOf, lookupVal_setVal_self, approvalFlagBytes]

/-- Claim C2, witness at a concrete one-entry state. -/
theorem claim_C2_witness :
    lookupVal (enableEntry (disableEntry ⟨[("App", ⟨[65, 66], 1⟩)], [], some [], some []⟩ "App")
        "App" "x").run "App" = some ⟨[65, 66], 1⟩ ∧
    approvalStateOf (enableEntry (disableEntry ⟨[("App", ⟨[65, 66], 1⟩)], [], some [], some []⟩
        "App") "App" "x") "App" = ApprovalState.Enabled :=
  claim_C2_roundtrip ⟨[("App", ⟨[65, 66], 1⟩)], [], some [], some []⟩ "App" "x"
    ⟨[65, 66], 1⟩ (by decide) (by decide)

/-- Claim C6: invoking Disable on an entry whose primary value is absent
and which is already relocated to the RunDisabled shadow is a no-op
success: the Run and RunDisabled backends are untouched and the only
effect is re-writing the disabled approval flag in the views whose
approval key exists (the source reports no error on this path: the
FileNotFoundError from the primary read is caught and only the approval
write is performed). -/
theorem claim_C6_idempotent_disable (st : StartupState) (name : String) (v : RegValue)
    (hrun : lookupVal st.run name = none)
    (hshadow : lookupVal st.runDisabled name = some v) :
    (disableEntry st name).run = st.run ∧
    (disableEntry st name).runDisabled = st.runDisabled ∧
    (disableEntry st name).approved64 =
      st.approved64.map (fun m => setVal m name (approvalFlagBytes false)) ∧
    (disableEntry st name).approved32 =
      st.approved32.map (fun m => setVal m name (approvalFlagBytes false)) := by
  simp [disableEntry, hrun, writeApprovedViews]

/-- Claim C6, witness at a concrete already-disabled state. -/
theorem claim_C6_witness :
    (disableEntry ⟨[], [("App", ⟨[65], 1⟩)], some [], some []⟩ "App").run = [] ∧
    (disableEntry ⟨[], [("App", ⟨[65], 1⟩)], some [], some []⟩ "App").runDisabled =
      [("App", ⟨[65], 1⟩)] ∧
    (disableEntry ⟨[], [("App", ⟨[65], 1⟩)], some [], some []⟩ "App").approved64 =
      (some []).map (fun m => setVal m "App" (approvalFlagBytes false)) ∧
    (disableEntry ⟨[], [("App", ⟨[65], 1⟩)], some [], some []⟩ "App").approved32 =
      (some []).map (fun m => setVal m "App" (approvalFlagBytes false)) :=
  claim_C6_idempotent_disable ⟨[], [("App", ⟨[65], 1⟩)], some [], some []⟩ "App"
    ⟨[65], 1⟩ (by decide) (by decide)

/-- Claim C7, counterexample: the set_startup_status transition
(processLoad.py 1174-1197) writes a 12-byte approval value (flag byte
plus 11 zero bytes) on its disable path, not the 8-byte value the claim
asserts for every approval-flag write. -/
theorem claim_C7_counterexample :
    setStartupStatusBytes false = [3, 0, 0, 0, 0, 0, 0, 0, 0, 0, 0, 0] ∧
    ¬ ((setStartupStatusBytes false).length = 8) := by
  exact ⟨by decide, by decide⟩

/-- Claim C7 (amended): approval writes issued through
_set_startup_approval (the path used by the disable and enable UI
transitions for registry and startup-folder entries alike) store an
8-byte value whose first byte is 0x02 for enable and 0x03 for disable
with the remaining 7 bytes zero; the set_startup_status transition
instead stores a 12-byte value with the same first byte and 11 zero
bytes. -/
theorem claim_C7_amended : ∀ b : Bool,
    (approvalFlagBytes b).length = 8 ∧
    (approvalFlagBytes b).head? = some (if b then 2 else 3) ∧
    (approvalFlagBytes b).tail = List.replicate 7 0 ∧
    (setStartupStatusBytes b).length = 12 ∧
    (setStartupStatusBytes b).head? = some (if b then 2 else 3) ∧
    (setStartupStatusBytes b).tail = List.replicate 11 0 := by
  intro b
  cases b <;> exact ⟨by decide, by decide, by decide, by decide, by decide, by decide⟩

/-- Claim C9: a missing or unparseable preference file loads as empty
whitelist and blacklist through the caught-exception path (no fatal
error), and the load never modifies the file state, leaving a corrupt
file in place for inspection. -/
theorem claim_C9_pref_fallback : ∀ f : PrefFile,
    (loadUserPrefs f).2 = f ∧
    ((f = PrefFile.missing ∨ f = PrefFile.corrupt) →
      (loadUserPrefs f).1 = UserPrefs.mk [] []) := by
  intro f
  cases f <;> simp [loadUserPrefs]

/-- Claim C9, witness at the corrupt file state. -/
theorem claim_C9_witness :
    (loadUserPrefs PrefFile.corrupt).2 = PrefFile.corrupt ∧
    (loadUserPrefs PrefFile.corrupt).1 = UserPrefs.mk [] [] :=
  ⟨(claim_C9_pref_fallback PrefFile.corrupt).1,
   (claim_C9_pref_fallback PrefFile.corrupt).2 (Or.inr rfl)⟩

/-- Claim C8, counterexample: after a pass that observed only pid 7, the
previous-disk cache still contains the entry for pid 42 from the prior
pass, although 42 is not among the observed pids. -/
theorem claim_C8_counterexample :
    (updateDeltaCaches [(42, (5, 5))] [(42, (1, 1))] [⟨7, "app.exe", 10, 10, 2, 3⟩]).1 =
      [(42, (5, 5)), (7, (10, 10))] ∧
    (updateDeltaCaches [(42, (5, 5))] [(42, (1, 1))] [⟨7, "app.exe", 10, 10, 2, 3⟩]).2 =
      [(42, (1, 1)), (7, (2, 3))] ∧
    ¬ (42 ∈ ([⟨7, "app.exe", 10, 10, 2, 3⟩] : List ProcIoObs).map ProcIoObs.pid) := by
  exact ⟨by decide, by decide, by decide⟩

/-- Claim C8 (amended): the previous-disk and previous-net caches are
updated by insertion only: a sampling pass overwrites or adds entries for
the currently observed non-system pids but never removes any entry, so a
pid present in a cache before a pass is still present after it and the
caches can grow without bound across passes. -/
theorem claim_C8_amended (procs : List ProcIoObs) :
    ∀ (pd pn : List (Nat × (Nat × Nat))) (k : Nat),
    ((lookupVal pd k).isSome → (lookupVal (updateDeltaCaches pd pn procs).1 k).isSome) ∧
    ((lookupVal pn k).isSome → (lookupVal (updateDeltaCaches pd pn procs).2 k).isSome) := by
  induction procs with
  | nil => intro pd pn k; exact ⟨id, id⟩
  | cons p ps ih =>
      intro pd pn k
      unfold updateDeltaCaches
      split
      · exact ih pd pn k
      · exact ⟨fun h => (ih _ _ k).1 (lookupVal_setVal_isSome _ _ _ _ h),
               fun h => (ih _ _ k).2 (lookupVal_setVal_isSome _ _ _ _ h)⟩

/-- Claim C8, witness: the stale pid 42 survives the concrete pass. -/
theorem claim_C8_witness :
    (lookupVal (updateDeltaCaches [(42, (5, 5))] [(42, (1, 1))]
        [⟨7, "app.exe", 10, 10, 2, 3⟩]).1 42).isSome :=
  (claim_C8_amended [⟨7, "app.exe", 10, 10, 2, 3⟩] [(42, (5, 5))] [(42, (1, 1))] 42).1
    (by decide)

theorem mem_of_dedupGo {e : RawEntry} :
    ∀ (l : List RawEntry) (seen : List (String × String)), e ∈ dedupGo seen l → e ∈ l := by
  intro l
  induction l with
  | nil => intro seen h; cases h
  | cons x xs ih =>
      intro seen h
      unfold dedupGo at h
      split at h
      · exact List.mem_cons_of_mem x (ih seen h)
      · rcases List.mem_cons.mp h with h1 | h2
        · exact h1 ▸ List.mem_cons_self x xs
        · exact List.mem_cons_of_mem x (ih _ h2)

theorem dedupGo_keys_nodup :
    ∀ (l : List RawEntry) (seen : List (String × String)),
      ((dedupGo seen l).map dedupKey).Nodup ∧
      (∀ k ∈ (dedupGo seen l).map dedupKey, k ∉ seen) := by
  intro l
  induction l with
  | nil => intro seen; exact ⟨List.nodup_nil, by intro k hk; cases hk⟩
  | cons x xs ih =>
      intro seen
      unfold dedupGo
      split
      · exact ih seen
      · next hx =>
          obtain ⟨hnd, hout⟩ := ih (dedupKey x :: seen)
          constructor
          · simp only [List.map_cons, List.nodup_cons]
            refine ⟨?_, hnd⟩
            intro hmem
            exact hout _ hmem (List.mem_cons_self _ _)
          · intro k hk hkseen
            simp only [List.map_cons, List.mem_cons] at hk
            rcases hk with h1 | h2
            · exact hx (h1 ▸ hkseen)
            · exact hout _ h2 (List.mem_cons_of_mem _ hkseen)

theorem dedupGo_covers {e : RawEntry} :
    ∀ (l : List RawEntry) (seen : List (String × String)),
      e ∈ l → dedupKey e ∉ seen → dedupKey e ∈ (dedupGo seen l).map dedupKey := by
  intro l
  induction l with
  | nil => intro seen h; cases h
  | cons x xs ih =>
      intro seen hmem hseen
      unfold dedupGo
      rcases List.mem_cons.mp hmem with h1 | h2
      · subst h1
        rw [if_neg hseen]
        exact List.mem_cons_self _ _
      · split
        · exact ih seen h2 hseen
        · by_cases hkey : dedupKey e = dedupKey x
          · simp [hkey]
          · have : dedupKey e ∉ dedupKey x :: seen := by
              intro hc
              rcases List.mem_cons.mp hc with hc1 | hc2
              · exact hkey hc1
              · exact hseen hc2
            exact List.mem_cons_of_mem _ (ih _ h2 this)

theorem dedupGo_fixed :
    ∀ (l : List RawEntry) (seen : List (String × String)),
      (l.map dedupKey).Nodup → (∀ e ∈ l, dedupKey e ∉ seen) → dedupGo seen l = l := by
  intro l
  induction l with
  | nil => intro seen _ _; rfl
  | cons x xs ih =>
      intro seen hnd hseen
      unfold dedupGo
      rw [if_neg (hseen x (List.mem_cons_self _ _))]
      congr 1
      apply ih
      · exact (List.nodup_cons.mp hnd).2
      · intro e he
        intro hc
        rcases List.mem_cons.mp hc with hc1 | hc2
        · exact (List.nodup_cons.mp hnd).1 (hc1 ▸ List.mem_map_of_mem dedupKey he)
        · exact hseen e (List.mem_cons_of_mem x he) hc2

/-- Claim C3, counterexample: two registry records whose commands resolve
to the same spec-normalized identity (basename foo.exe, quote-stripped
and lower-cased) are NOT merged - the enumeration keeps both, because the
implemented key is the (lowered name, lowered command) pair; and when a
registry record and a startup-folder record do collide on that key, the
registry representation is kept, not the startup-folder one. -/
theorem claim_C3_counterexample :
    specNormIdentity "C:\\x\\foo.exe" = specNormIdentity "C:\\y\\foo.exe" ∧
    mergeStartupEntries
        [⟨some 1, some "RP", "App", "C:\\x\\foo.exe"⟩,
         ⟨some 1, some "RP", "App2", "C:\\y\\foo.exe"⟩] [] =
      [⟨some 1, some "RP", "App", "C:\\x\\foo.exe"⟩,
       ⟨some 1, some "RP", "App2", "C:\\y\\foo.exe"⟩] ∧
    mergeStartupEntries [⟨some 1, some "RP", "App", "C:\\x\\foo.exe"⟩]
        [⟨none, none, "App", "c:\\X\\FOO.exe"⟩] =
      [⟨some 1, some "RP", "App", "C:\\x\\foo.exe"⟩] := by
  exact ⟨by decide, by decide, by decide⟩

/-- Claim C3 (amended): the dedup key the enumeration actually builds is
the pair (lower-cased name, lower-cased raw command), not the resolved
executable basename; the merged list carries exactly one entry per
distinct key, every merged entry is one of the raw records, every raw
record key is represented, and the first record in enumeration order wins
(registry records precede startup-folder records, so the registry
representation is preferred); re-running the merge on its own output
returns it unchanged, so repeated enumeration over unchanged raw state is
idempotent. -/
theorem claim_C3_amended (reg folder : List RawEntry) :
    ((mergeStartupEntries reg folder).map dedupKey).Nodup ∧
    (∀ e ∈ mergeStartupEntries reg folder, e ∈ reg ++ folder) ∧
    (∀ e ∈ reg ++ folder, dedupKey e ∈ (mergeStartupEntries reg folder).map dedupKey) ∧
    dedupGo [] (mergeStartupEntries reg folder) = mergeStartupEntries reg folder := by
  refine ⟨(dedupGo_keys_nodup _ []).1, ?_, ?_, ?_⟩
  · intro e he
    have h1 := mem_of_dedupGo _ [] he
    rcases List.mem_append.mp h1 with h2 | h3
    · exact List.mem_append.mpr (Or.inl (mem_of_dedupGo _ [] h2))
    · exact List.mem_append.mpr (Or.inr h3)
  · intro e he
    rcases List.mem_append.mp he with h2 | h3
    · have hk := dedupGo_covers reg [] h2 (by intro hc; cases hc)
      obtain ⟨x, hx, hxk⟩ := List.mem_map.mp hk
      have hxin : x ∈ dedupGo [] reg ++ folder := List.mem_append.mpr (Or.inl hx)
      have := dedupGo_covers _ [] hxin (by intro hc; cases hc)
      rw [hxk] at this
      exact this
    · exact dedupGo_covers _ [] (List.mem_append.mpr (Or.inr h3)) (by intro hc; cases hc)
  · exact dedupGo_fixed _ [] (dedupGo_keys_nodup _ []).1 (by intro e _ hc; cases hc)

/-- Claim C3, witness: the amended theorem at a concrete raw state with a
registry/folder key collision. -/
theorem claim_C3_witness :
    ((mergeStartupEntries [⟨some 1, some "RP", "App", "C:\\x\\foo.exe"⟩]
        [⟨none, none, "App", "c:\\X\\FOO.exe"⟩]).map dedupKey).Nodup ∧
    dedupKey (⟨none, none, "App", "c:\\X\\FOO.exe"⟩ : RawEntry) ∈
      (mergeStartupEntries [⟨some 1, some "RP", "App", "C:\\x\\foo.exe"⟩]
        [⟨none, none, "App", "c:\\X\\FOO.exe"⟩]).map dedupKey :=
  ⟨(claim_C3_amended [⟨some 1, some "RP", "App", "C:\\x\\foo.exe"⟩]
      [⟨none, none, "App", "c:\\X\\FOO.exe"⟩]).1,
   (claim_C3_amended [⟨some 1, some "RP", "App", "C:\\x\\foo.exe"⟩]
      [⟨none, none, "App", "c:\\X\\FOO.exe"⟩]).2.2.1 _ (by decide)⟩
